import Mathlib

/-!
Shallow embedding of the check runner
(src/packages/cli/src/services/abstract-check-runner.ts).

The runner tracks a map of dispatched checks and a registry of per-check
timers.  Inbound MQTT messages and timer expirations are serialized by a
single-worker queue; we model the serialized stream as a list of
occurrences (`Occ`) folded over the runner state, each occurrence emitting
a batch of lifecycle events.  Fallible asset fetches are modelled as an
environment of `Except`-valued functions; a `.error` result corresponds to
a rejected promise, i.e. a thrown exception at the call site.
-/

namespace ChecklyCli

/-- Asset locations declared in a run-end result payload
(`result.assets` in the source).  `logPath` and `checkRunDataPath` follow
JavaScript truthiness: absent or empty strings are falsy. -/
structure AssetPaths where
  region : String
  logPath : Option String
  checkRunDataPath : Option String
  playwrightTestTraceFiles : List String
  playwrightTestVideoFiles : List String
deriving DecidableEq

/-- The `result` object of a run-end message.  The four optional fields
model the properties attached by `processMessage` during enrichment
(`result.logs`, `result.checkRunData`, `result.traceFilesUrls`,
`result.videoFilesUrls`). -/
structure CheckResult where
  hasFailures : Bool
  assets : AssetPaths
  logs : Option String
  checkRunData : Option String
  traceFilesUrls : Option (List String)
  videoFilesUrls : Option (List String)
deriving DecidableEq

/-- Payload of an inbound message.  A run-end message carries a `result`
object; any other shape is `other` (destructuring `result.assets` from it
throws, as in the source). -/
inductive InboundPayload where
  | runEnd (result : CheckResult)
  | other (raw : String)
deriving DecidableEq

/-- The second argument of a `CHECK_FAILED` emission: either the timeout
string built by `setAllTimeouts` or the backend message relayed verbatim
by the error branch of `processMessage`. -/
inductive FailInfo where
  | str (s : String)
  | msg (m : InboundPayload)
deriving DecidableEq

/-- Lifecycle events (the `Events` enum).  Per-check events carry the
check run id of the emission site together with `this.checks.get(id)`
(which is `none` when the id is not in the checks map, like `undefined`).
`CHECK_SUCCESSFUL` carries the possibly-enriched result object. -/
inductive Event where
  | CHECK_REGISTERED
  | CHECK_INPROGRESS (checkRunId : String) (check : Option String)
  | CHECK_FAILED (checkRunId : String) (check : Option String) (info : FailInfo)
  | CHECK_SUCCESSFUL (checkRunId : String) (check : Option String) (result : CheckResult)
  | CHECK_FINISHED (checkRunId : String) (check : Option String)
  | RUN_STARTED (testSessionId : Option String) (testResultIds : Option (List (String × String)))
  | RUN_FINISHED (testSessionId : Option String)
  | ERROR (err : String)
deriving DecidableEq

/-- One armed timer: the check run id keyed in `this.timeouts`, the check
descriptor captured by the `setTimeout` callback closure, and the delay in
milliseconds passed to `setTimeout`. -/
structure TimerEntry where
  checkRunId : String
  check : String
  delayMs : Nat
deriving DecidableEq

/-- Runner state: the checks map (association list, unique keys), the
timer registry, and the configured timeout (seconds) and verbose flag. -/
structure RunnerState where
  checks : List (String × String)
  timeouts : List TimerEntry
  timeout : Nat
  verbose : Bool
deriving DecidableEq

/-- The fallible asset service (`assets.getLogs`, `assets.getCheckRunData`,
`assets.getAssetsLink`); each call either returns a value or throws. -/
structure AssetEnv where
  getLogs : String → String → Except String String
  getCheckRunData : String → String → Except String String
  getAssetsLink : String → String → Except String String

/-- Lookup in the timer registry (`this.timeouts.get(checkRunId)`). -/
def findTimer (ts : List TimerEntry) (k : String) : Option TimerEntry :=
  ts.find? (fun t => t.checkRunId == k)

/-- Key membership in the timer registry (`this.timeouts.has(checkRunId)`). -/
def timeoutsHas (ts : List TimerEntry) (k : String) : Bool :=
  (findTimer ts k).isSome

/-- Key removal from the timer registry (`this.timeouts.delete(checkRunId)`). -/
def timeoutsDelete (ts : List TimerEntry) (k : String) : List TimerEntry :=
  ts.filter (fun t => t.checkRunId != k)

/-- Lookup in the checks map (`this.checks.get(checkRunId)`). -/
def checksGet (cs : List (String × String)) (k : String) : Option String :=
  (cs.find? (fun c => c.1 == k)).map (fun c => c.2)

/-- The `disableTimeout` method: `clearTimeout` plus registry removal.  A
cleared timer's callback never runs, so removal from the registry is the
whole observable effect. -/
def disableTimeout (s : RunnerState) (k : String) : RunnerState :=
  { s with timeouts := timeoutsDelete s.timeouts k }

/-- The timeout message built inside the `setAllTimeouts` callback. -/
def timeoutMessage (t : Nat) : String :=
  "Reached timeout of " ++ toString t ++ " seconds waiting for check result."

/-- The `setAllTimeouts` method: one timer per checks-map entry, capturing
the descriptor in the closure, with delay `this.timeout * 1000`. -/
def armTimeouts (cs : List (String × String)) (t : Nat) : List TimerEntry :=
  cs.map (fun c => { checkRunId := c.1, check := c.2, delayMs := t * 1000 })

/-- JavaScript truthiness of an optional string  (`logPath &&`). -/
def truthyPath : Option String → Bool
  | none => false
  | some p => !p.isEmpty

/-- The log fetch of the run-end branch: `if (logPath && (this.verbose ||
result.hasFailures)) result.logs = await assets.getLogs(region, logPath)`.
A fetch error propagates (this call sits outside the try/catch). -/
def fetchLogStep (env : AssetEnv) (verbose : Bool) (r : CheckResult) :
    Except String CheckResult :=
  if truthyPath r.assets.logPath && (verbose || r.hasFailures) then
    match r.assets.logPath with
    | some p => (env.getLogs r.assets.region p).map (fun l => { r with logs := some l })
    | none => Except.ok r
  else Except.ok r

/-- The check-run-data fetch of the run-end branch, likewise outside the
try/catch. -/
def fetchDataStep (env : AssetEnv) (verbose : Bool) (r : CheckResult) :
    Except String CheckResult :=
  if truthyPath r.assets.checkRunDataPath && (verbose || r.hasFailures) then
    match r.assets.checkRunDataPath with
    | some p => (env.getCheckRunData r.assets.region p).map
        (fun d => { r with checkRunData := some d })
    | none => Except.ok r
  else Except.ok r

/-- Both unguarded fetches of the run-end branch, in source order.  An
`.error` result models the exception escaping `processMessage`. -/
def enrichResult (env : AssetEnv) (verbose : Bool) (r : CheckResult) :
    Except String CheckResult :=
  (fetchLogStep env verbose r).bind (fetchDataStep env verbose)

/-- The try/catch block of the run-end branch: when the result has
failures, resolve trace links then video links (`Promise.all`, which
fails if any element fails); any error is swallowed, keeping whatever was
attached before it was thrown. -/
def attachLinks (env : AssetEnv) (region : String) (r : CheckResult) : CheckResult :=
  if r.hasFailures then
    let afterTrace : Except String CheckResult :=
      if !r.assets.playwrightTestTraceFiles.isEmpty then
        (r.assets.playwrightTestTraceFiles.mapM (env.getAssetsLink region)).map
          (fun urls => { r with traceFilesUrls := some urls })
      else Except.ok r
    match afterTrace with
    | Except.error _ => r
    | Except.ok r1 =>
      if !r1.assets.playwrightTestVideoFiles.isEmpty then
        match r1.assets.playwrightTestVideoFiles.mapM (env.getAssetsLink region) with
        | Except.error _ => r1
        | Except.ok urls => { r1 with videoFilesUrls := some urls }
      else r1
  else r

/-- The `processMessage` method.  Returns the updated state and the batch
of events emitted while handling the message; an early `return` or a
thrown exception keeps the state changes made so far and emits nothing
further. -/
def processMessage (env : AssetEnv) (s : RunnerState) (checkRunId : String)
    (subtopic : String) (message : InboundPayload) : RunnerState × List Event :=
  if !timeoutsHas s.timeouts checkRunId then (s, [])
  else
    let check := checksGet s.checks checkRunId
    if subtopic == "run-start" then
      (s, [Event.CHECK_INPROGRESS checkRunId check])
    else if subtopic == "run-end" then
      let s1 := disableTimeout s checkRunId
      match message with
      | InboundPayload.runEnd result =>
        match enrichResult env s.verbose result with
        | Except.error _ => (s1, [])
        | Except.ok r1 =>
          let r2 := attachLinks env r1.assets.region r1
          (s1, [Event.CHECK_SUCCESSFUL checkRunId check r2,
                Event.CHECK_FINISHED checkRunId check])
      | InboundPayload.other _ => (s1, [])
    else if subtopic == "error" then
      let s1 := disableTimeout s checkRunId
      (s1, [Event.CHECK_FAILED checkRunId check (FailInfo.msg message),
            Event.CHECK_FINISHED checkRunId check])
    else (s, [])

/-- Expiry of the timer armed for `k`.  The callback runs only if the
timer was not cleared, i.e. only if its entry is still in the registry; it
removes the entry and emits `CHECK_FAILED` (with the timeout string and
the closure-captured descriptor) then `CHECK_FINISHED`. -/
def timerFire (s : RunnerState) (k : String) : RunnerState × List Event :=
  match findTimer s.timeouts k with
  | none => (s, [])
  | some t =>
    ({ s with timeouts := timeoutsDelete s.timeouts k },
     [Event.CHECK_FAILED k (some t.check) (FailInfo.str (timeoutMessage s.timeout)),
      Event.CHECK_FINISHED k (some t.check)])

/-- One serialized occurrence: a queued inbound message, or the expiry of
the timer armed for a check run id. -/
inductive Occ where
  | msg (checkRunId : String) (subtopic : String) (message : InboundPayload)
  | fire (checkRunId : String)

/-- Dispatch of one occurrence. -/
def step (env : AssetEnv) (s : RunnerState) : Occ → RunnerState × List Event
  | Occ.msg k sub m => processMessage env s k sub m
  | Occ.fire k => timerFire s k

/-- Fold a serialized occurrence schedule over the runner state,
concatenating the emitted batches. -/
def processOccs (env : AssetEnv) : RunnerState → List Occ → RunnerState × List Event
  | s, [] => (s, [])
  | s, o :: rest =>
    let p := step env s o
    let q := processOccs env p.1 rest
    (q.1, p.2 ++ q.2)

/-- The check run id of a `CHECK_FINISHED` event, if any. -/
def cfId : Event → Option String
  | Event.CHECK_FINISHED k _ => some k
  | _ => none

/-- Check run ids of the `CHECK_FINISHED` events of a trace, in order. -/
def cfIds (evs : List Event) : List String := evs.filterMap cfId

/-- Number of `CHECK_FINISHED` events in a trace (what the
`allChecksFinished` listener counts). -/
def countCF (evs : List Event) : Nat := (cfIds evs).length

/-- Number of `CHECK_FINISHED` events for a given check run id. -/
def countCFfor (k : String) (evs : List Event) : Nat := (cfIds evs).count k

/-- Whether an event is `RUN_FINISHED`. -/
def Event.isRunFinishedEv : Event → Bool
  | Event.RUN_FINISHED _ => true
  | _ => false

/-- Number of `RUN_FINISHED` events in a trace. -/
def countRF (evs : List Event) : Nat := (evs.filter Event.isRunFinishedEv).length

/-- The awaited `allChecksFinished` promise interleaved with message
processing: the accumulator mirrors `finishedCheckCount`, and
`RUN_FINISHED` is emitted the first time the count reaches the total,
at the end of the batch whose `CHECK_FINISHED` reached it. -/
def runLoop (env : AssetEnv) (numChecks : Nat) (sid : Option String) :
    RunnerState → Nat → List Occ → RunnerState × List Event
  | s, _, [] => (s, [])
  | s, cnt, o :: rest =>
    let p := step env s o
    let cnt1 := cnt + countCF p.2
    let q := runLoop env numChecks sid p.1 cnt1 rest
    if cnt < numChecks ∧ numChecks ≤ cnt1 then
      (q.1, p.2 ++ Event.RUN_FINISHED sid :: q.2)
    else
      (q.1, p.2 ++ q.2)

/-- Configuration held by the runner instance. -/
structure RunnerConfig where
  accountId : String
  timeout : Nat
  verbose : Bool

/-- The value resolved by `scheduleChecks`. -/
structure ScheduleResult where
  testSessionId : Option String
  testResultIds : Option (List (String × String))
  checks : List (String × String)

/-- External outcomes a run is exposed to: connection, subscription and
dispatch each succeed or throw; the asset environment; and the serialized
schedule of occurrences the queue processes. -/
structure RunInputs where
  connect : Except String Unit
  subscribe : Except String Unit
  scheduleChecks : Except String ScheduleResult
  env : AssetEnv
  occs : List Occ

/-- The `run` method: connect, subscribe, dispatch; on any failure,
disable all timers (none are armed yet in these paths, and the checks map
is still unset, so `disableAllTimeouts` no-ops) and emit `ERROR`.  On
success, arm all timers, emit `RUN_STARTED`, process the serialized
schedule, and emit `RUN_FINISHED` when `allChecksFinished` resolves —
immediately if the run has zero checks.  Returns the final timer registry
and the emitted trace. -/
def run (cfg : RunnerConfig) (inp : RunInputs) : List TimerEntry × List Event :=
  match inp.connect with
  | Except.error e => ([], [Event.ERROR e])
  | Except.ok _ =>
    match inp.subscribe with
    | Except.error e => ([], [Event.ERROR e])
    | Except.ok _ =>
      match inp.scheduleChecks with
      | Except.error e => ([], [Event.ERROR e])
      | Except.ok sched =>
        let s0 : RunnerState :=
          { checks := sched.checks
            timeouts := armTimeouts sched.checks cfg.timeout
            timeout := cfg.timeout
            verbose := cfg.verbose }
        if sched.checks.length = 0 then
          let p := processOccs inp.env s0 inp.occs
          (p.1.timeouts,
           Event.RUN_STARTED sched.testSessionId sched.testResultIds ::
           Event.RUN_FINISHED sched.testSessionId :: p.2)
        else
          let p := runLoop inp.env sched.checks.length sched.testSessionId s0 0 inp.occs
          (p.1.timeouts,
           Event.RUN_STARTED sched.testSessionId sched.testResultIds :: p.2)

/-! ### Registry lemmas -/

/-- Registry membership unfolded to an existence statement. -/
theorem timeoutsHas_iff_exists (ts : List TimerEntry) (k : String) :
    timeoutsHas ts k = true ↔ ∃ t ∈ ts, t.checkRunId = k := by
  simp [timeoutsHas, findTimer, List.find?_isSome, beq_iff_eq]

/-- Deleting a key from the registry in terms of membership of any key. -/
theorem timeoutsHas_delete (ts : List TimerEntry) (k0 k : String) :
    timeoutsHas (timeoutsDelete ts k0) k = (!(k == k0) && timeoutsHas ts k) := by
  by_cases hk : k = k0
  · subst hk
    simp only [beq_self_eq_true, Bool.not_true, Bool.false_and]
    rw [← Bool.not_eq_true, timeoutsHas_iff_exists]
    simp [timeoutsDelete, List.mem_filter]
  · have hbe : (k == k0) = false := beq_eq_false_iff_ne.mpr hk
    simp only [hbe, Bool.not_false, Bool.true_and]
    by_cases h : timeoutsHas ts k
    · rw [h, timeoutsHas_iff_exists]
      rcases (timeoutsHas_iff_exists ts k).mp h with ⟨t, ht, hid⟩
      exact ⟨t, List.mem_filter.mpr ⟨ht, by simp [hid, hk]⟩, hid⟩
    · rw [Bool.not_eq_true] at h
      rw [h, ← Bool.not_eq_true, timeoutsHas_iff_exists]
      rintro ⟨t, ht, hid⟩
      have : timeoutsHas ts k = true :=
        (timeoutsHas_iff_exists ts k).mpr ⟨t, (List.mem_filter.mp ht).1, hid⟩
      simp [h] at this

/-- Deleting a key removes it from the registry. -/
theorem timeoutsHas_delete_self (ts : List TimerEntry) (k : String) :
    timeoutsHas (timeoutsDelete ts k) k = false := by
  simp [timeoutsHas_delete]

/-- Deleting one key leaves every other key's membership unchanged. -/
theorem timeoutsHas_delete_ne (ts : List TimerEntry) (k0 k : String) (h : k ≠ k0) :
    timeoutsHas (timeoutsDelete ts k0) k = timeoutsHas ts k := by
  simp [timeoutsHas_delete, beq_eq_false_iff_ne.mpr h]

/-! ### Shared concrete inputs used by witnesses and counterexamples -/

/-- Asset service in which every fetch succeeds. -/
def envOk : AssetEnv :=
  { getLogs := fun _ _ => Except.ok "logs"
    getCheckRunData := fun _ _ => Except.ok "data"
    getAssetsLink := fun _ _ => Except.ok "link" }

/-- A result payload declaring no asset locations. -/
def assetsNone : AssetPaths :=
  { region := "eu-west-1", logPath := none, checkRunDataPath := none
    playwrightTestTraceFiles := [], playwrightTestVideoFiles := [] }

/-- A plain successful result with no assets to fetch. -/
def resultPlain : CheckResult :=
  { hasFailures := false, assets := assetsNone, logs := none
    checkRunData := none, traceFilesUrls := none, videoFilesUrls := none }

/-- A runner state with two dispatched checks, both timers armed. -/
def stateAB : RunnerState :=
  { checks := [("A", "descA"), ("B", "descB")]
    timeouts := armTimeouts [("A", "descA"), ("B", "descB")] 5
    timeout := 5, verbose := false }

/-! ### C3: messages without an armed timer are discarded silently -/

/-- C3: for every inbound message whose check identifier has no entry in
the timer registry, `processMessage` emits no event and returns the state
unchanged, whatever the subtopic and payload. -/
theorem C3_no_timer_discard (env : AssetEnv) (s : RunnerState) (k subtopic : String)
    (m : InboundPayload) (h : timeoutsHas s.timeouts k = false) :
    processMessage env s k subtopic m = (s, []) := by
  simp [processMessage, h]

/-- Witness for C3 at a concrete late message. -/
theorem C3_no_timer_discard_witness :
    timeoutsHas stateAB.timeouts "C" = false ∧
    processMessage envOk stateAB "C" "run-end" (InboundPayload.runEnd resultPlain) =
      (stateAB, []) :=
  ⟨by decide, C3_no_timer_discard envOk stateAB "C" "run-end"
    (InboundPayload.runEnd resultPlain) (by decide)⟩

/-! ### C7: run-start emits CHECK_INPROGRESS and leaves the timer armed -/

/-- C7: a run-start message for a check with an armed timer emits
`CHECK_INPROGRESS` and leaves the whole state (in particular the timer
registry) unchanged, so a later expiry of that timer still fires exactly
as it would have. -/
theorem C7_run_start_keeps_timer (env : AssetEnv) (s : RunnerState) (k : String)
    (m : InboundPayload) (h : timeoutsHas s.timeouts k = true) :
    processMessage env s k "run-start" m =
      (s, [Event.CHECK_INPROGRESS k (checksGet s.checks k)]) ∧
    timerFire (processMessage env s k "run-start" m).1 k = timerFire s k := by
  constructor
  · simp [processMessage, h]
  · simp [processMessage, h]

/-- Witness for C7 at a concrete state. -/
theorem C7_run_start_keeps_timer_witness :
    timeoutsHas stateAB.timeouts "A" = true ∧
    (processMessage envOk stateAB "A" "run-start" (InboundPayload.other "x") =
      (stateAB, [Event.CHECK_INPROGRESS "A" (some "descA")]) ∧
     timerFire (processMessage envOk stateAB "A" "run-start" (InboundPayload.other "x")).1 "A" =
       timerFire stateAB "A") := by
  refine ⟨by decide, ?_⟩
  have h := C7_run_start_keeps_timer envOk stateAB "A" (InboundPayload.other "x") (by decide)
  exact ⟨by rw [h.1]; decide, h.2⟩

/-! ### C8: error messages cancel the timer and relay the backend fault -/

/-- C8: an error-subtopic message for a check with an armed timer removes
the check's timer entry and emits `CHECK_FAILED` carrying the backend
message verbatim, then `CHECK_FINISHED`. -/
theorem C8_error_relays_backend_fault (env : AssetEnv) (s : RunnerState) (k : String)
    (m : InboundPayload) (h : timeoutsHas s.timeouts k = true) :
    processMessage env s k "error" m =
      (disableTimeout s k,
       [Event.CHECK_FAILED k (checksGet s.checks k) (FailInfo.msg m),
        Event.CHECK_FINISHED k (checksGet s.checks k)]) ∧
    timeoutsHas (processMessage env s k "error" m).1.timeouts k = false := by
  constructor
  · simp [processMessage, h]
  · simp [processMessage, h, disableTimeout, timeoutsHas_delete_self]

/-- Witness for C8 at a concrete backend-reported failure. -/
theorem C8_error_relays_backend_fault_witness :
    timeoutsHas stateAB.timeouts "B" = true ∧
    (processMessage envOk stateAB "B" "error" (InboundPayload.other "backend says no") =
      (disableTimeout stateAB "B",
       [Event.CHECK_FAILED "B" (some "descB") (FailInfo.msg (InboundPayload.other "backend says no")),
        Event.CHECK_FINISHED "B" (some "descB")]) ∧
     timeoutsHas (processMessage envOk stateAB "B" "error"
        (InboundPayload.other "backend says no")).1.timeouts "B" = false) := by
  refine ⟨by decide, ?_⟩
  have h := C8_error_relays_backend_fault envOk stateAB "B"
    (InboundPayload.other "backend says no") (by decide)
  exact ⟨by rw [h.1]; decide, h.2⟩

/-! ### C10: unknown subtopics are ignored without any state change -/

/-- C10: a message for a check with an armed timer whose subtopic is none
of run-start, run-end or error emits nothing and leaves the state
untouched, so the check still times out at its original deadline. -/
theorem C10_unknown_subtopic_ignored (env : AssetEnv) (s : RunnerState) (k subtopic : String)
    (m : InboundPayload) (h1 : subtopic ≠ "run-start") (h2 : subtopic ≠ "run-end")
    (h3 : subtopic ≠ "error") :
    processMessage env s k subtopic m = (s, []) ∧
    timerFire (processMessage env s k subtopic m).1 k = timerFire s k := by
  have e1 : (subtopic == "run-start") = false := beq_eq_false_iff_ne.mpr h1
  have e2 : (subtopic == "run-end") = false := beq_eq_false_iff_ne.mpr h2
  have e3 : (subtopic == "error") = false := beq_eq_false_iff_ne.mpr h3
  by_cases h : timeoutsHas s.timeouts k
  · constructor
    · simp [processMessage, h, e1, e2, e3]
    · simp [processMessage, h, e1, e2, e3]
  · rw [Bool.not_eq_true] at h
    constructor
    · simp [processMessage, h]
    · simp [processMessage, h]

/-- Witness for C10 at a concrete unrecognised subtopic. -/
theorem C10_unknown_subtopic_ignored_witness :
    ("run-log" ≠ "run-start" ∧ "run-log" ≠ "run-end" ∧ "run-log" ≠ "error") ∧
    (processMessage envOk stateAB "A" "run-log" (InboundPayload.other "x") = (stateAB, []) ∧
     timerFire (processMessage envOk stateAB "A" "run-log" (InboundPayload.other "x")).1 "A" =
       timerFire stateAB "A") :=
  ⟨⟨by decide, by decide, by decide⟩,
   C10_unknown_subtopic_ignored envOk stateAB "A" "run-log" (InboundPayload.other "x")
     (by decide) (by decide) (by decide)⟩

/-! ### C5: timer expiry reports a timeout failure once -/

/-- C5: when the timer armed for a check expires while still registered,
its entry is removed and exactly `CHECK_FAILED` with the timeout-kind
message then `CHECK_FINISHED` are emitted; moreover every timer armed by
`setAllTimeouts` carries a delay of the configured timeout in seconds
times 1000. -/
theorem C5_timer_expiry_reports_timeout (s : RunnerState) (k : String) (t : TimerEntry)
    (h : findTimer s.timeouts k = some t) :
    timerFire s k =
      ({ s with timeouts := timeoutsDelete s.timeouts k },
       [Event.CHECK_FAILED k (some t.check) (FailInfo.str (timeoutMessage s.timeout)),
        Event.CHECK_FINISHED k (some t.check)]) ∧
    timeoutsHas (timerFire s k).1.timeouts k = false ∧
    ∀ (cs : List (String × String)) (tsec : Nat), ∀ e ∈ armTimeouts cs tsec,
      e.delayMs = tsec * 1000 := by
  refine ⟨by simp [timerFire, h], by simp [timerFire, h, timeoutsHas_delete_self], ?_⟩
  intro cs tsec e he
  simp only [armTimeouts, List.mem_map] at he
  rcases he with ⟨c, _, rfl⟩
  rfl

/-- Witness for C5 at a concrete armed timer. -/
theorem C5_timer_expiry_reports_timeout_witness :
    findTimer stateAB.timeouts "B" = some { checkRunId := "B", check := "descB", delayMs := 5000 } ∧
    (timerFire stateAB "B" =
      ({ stateAB with timeouts := timeoutsDelete stateAB.timeouts "B" },
       [Event.CHECK_FAILED "B" (some "descB") (FailInfo.str (timeoutMessage 5)),
        Event.CHECK_FINISHED "B" (some "descB")]) ∧
     timeoutsHas (timerFire stateAB "B").1.timeouts "B" = false ∧
     ∀ (cs : List (String × String)) (tsec : Nat), ∀ e ∈ armTimeouts cs tsec,
       e.delayMs = tsec * 1000) :=
  ⟨by decide, C5_timer_expiry_reports_timeout stateAB "B"
    { checkRunId := "B", check := "descB", delayMs := 5000 } (by decide)⟩

/-! ### C1 and C4: run-end handling and artifact-fetch failures.

In the source, only the trace-link and video-link fetches sit inside the
try/catch; `assets.getLogs` and `assets.getCheckRunData` are called
outside it, so a failure there escapes `processMessage` after the timer
entry has already been removed, and neither `CHECK_SUCCESSFUL` nor
`CHECK_FINISHED` is emitted for the check. -/

/-- A fired timer whose entry is no longer registered does nothing. -/
theorem timerFire_not_armed (s : RunnerState) (k : String)
    (h : timeoutsHas s.timeouts k = false) : timerFire s k = (s, []) := by
  unfold timerFire
  cases hf : findTimer s.timeouts k with
  | none => rfl
  | some t => rw [timeoutsHas, hf] at h; simp at h

/-- Asset service whose log fetch always fails. -/
def envLogsFail : AssetEnv :=
  { getLogs := fun _ _ => Except.error "getLogs failed"
    getCheckRunData := fun _ _ => Except.ok "data"
    getAssetsLink := fun _ _ => Except.ok "link" }

/-- Asset service whose check-run-data fetch always fails. -/
def envDataFail : AssetEnv :=
  { getLogs := fun _ _ => Except.ok "logs"
    getCheckRunData := fun _ _ => Except.error "getCheckRunData failed"
    getAssetsLink := fun _ _ => Except.ok "link" }

/-- A link fetcher that always fails. -/
def linkFail : String → String → Except String String :=
  fun _ _ => Except.error "link fetch failed"

/-- A successful result that references a log artifact. -/
def resultWithLog : CheckResult :=
  { hasFailures := false
    assets := { region := "eu-west-1", logPath := some "logs/a.json"
                checkRunDataPath := none
                playwrightTestTraceFiles := [], playwrightTestVideoFiles := [] }
    logs := none, checkRunData := none, traceFilesUrls := none, videoFilesUrls := none }

/-- A failed result that references a check-run-data artifact. -/
def resultWithData : CheckResult :=
  { hasFailures := true
    assets := { region := "eu-west-1", logPath := none
                checkRunDataPath := some "data/a.json"
                playwrightTestTraceFiles := [], playwrightTestVideoFiles := [] }
    logs := none, checkRunData := none, traceFilesUrls := none, videoFilesUrls := none }

/-- A failed result that references trace and video artifacts only. -/
def resultWithTraces : CheckResult :=
  { hasFailures := true
    assets := { region := "eu-west-1", logPath := none, checkRunDataPath := none
                playwrightTestTraceFiles := ["trace1.zip"]
                playwrightTestVideoFiles := ["video1.webm"] }
    logs := none, checkRunData := none, traceFilesUrls := none, videoFilesUrls := none }

/-- A one-check runner state in verbose mode (so the log fetch runs even
for a passing result). -/
def stateVerbose : RunnerState :=
  { checks := [("A", "descA")]
    timeouts := armTimeouts [("A", "descA")] 5
    timeout := 5, verbose := true }

/-- Counterexample to C1 as stated: check A has an armed timer, a run-end
message arrives, and the log fetch fails; the handler emits NO events at
all — in particular neither `CHECK_SUCCESSFUL` nor `CHECK_FINISHED` — yet
the timer entry is already gone, so the check can never be reported. -/
theorem C1_log_fetch_failure_drops_events :
    timeoutsHas stateVerbose.timeouts "A" = true ∧
    processMessage envLogsFail stateVerbose "A" "run-end"
        (InboundPayload.runEnd resultWithLog) =
      (disableTimeout stateVerbose "A", []) := by decide

/-- C1 amended: only trace-link and video-link fetch failures are
swallowed.  If the log and check-run-data fetches succeed, then for every
behaviour of the link fetcher — including unconditional failure — the
run-end handler emits exactly `CHECK_SUCCESSFUL` then `CHECK_FINISHED`. -/
theorem C1_link_fetch_failures_swallowed (env : AssetEnv)
    (linkFetch : String → String → Except String String)
    (s : RunnerState) (k : String) (result r1 : CheckResult)
    (h : timeoutsHas s.timeouts k = true)
    (he : enrichResult env s.verbose result = Except.ok r1) :
    (processMessage { env with getAssetsLink := linkFetch } s k "run-end"
        (InboundPayload.runEnd result)).2 =
      [Event.CHECK_SUCCESSFUL k (checksGet s.checks k)
         (attachLinks { env with getAssetsLink := linkFetch } r1.assets.region r1),
       Event.CHECK_FINISHED k (checksGet s.checks k)] := by
  have he' : enrichResult { env with getAssetsLink := linkFetch } s.verbose result =
      Except.ok r1 := he
  simp [processMessage, h, he']

/-- Witness for the amended C1: a failing result with trace and video
artifacts, a link fetcher that always fails, and the success events still
emitted. -/
theorem C1_link_fetch_failures_swallowed_witness :
    timeoutsHas stateAB.timeouts "A" = true ∧
    enrichResult envOk stateAB.verbose resultWithTraces = Except.ok resultWithTraces ∧
    (processMessage { envOk with getAssetsLink := linkFail } stateAB "A" "run-end"
        (InboundPayload.runEnd resultWithTraces)).2 =
      [Event.CHECK_SUCCESSFUL "A" (some "descA")
         (attachLinks { envOk with getAssetsLink := linkFail }
            resultWithTraces.assets.region resultWithTraces),
       Event.CHECK_FINISHED "A" (some "descA")] :=
  ⟨by decide, by rfl,
   C1_link_fetch_failures_swallowed envOk linkFail stateAB "A" resultWithTraces
     resultWithTraces (by decide) (by rfl)⟩

/-- Counterexample to C4 as stated: check A has an armed timer and
receives run-end, but the check-run-data fetch fails; the timer entry is
removed yet neither `CHECK_SUCCESSFUL` nor `CHECK_FINISHED` is emitted. -/
theorem C4_data_fetch_failure_drops_events :
    timeoutsHas stateAB.timeouts "A" = true ∧
    processMessage envDataFail stateAB "A" "run-end"
        (InboundPayload.runEnd resultWithData) =
      (disableTimeout stateAB "A", []) := by decide

/-- C4 amended: a run-end for a check with an armed timer always removes
the timer entry; when the unguarded log and check-run-data fetches
succeed, `CHECK_SUCCESSFUL` then `CHECK_FINISHED` are emitted, and a
timer expiry occurring afterward produces no further event. -/
theorem C4_run_end_resolves_check (env : AssetEnv) (s : RunnerState) (k : String)
    (result r1 : CheckResult)
    (h : timeoutsHas s.timeouts k = true)
    (he : enrichResult env s.verbose result = Except.ok r1) :
    processMessage env s k "run-end" (InboundPayload.runEnd result) =
      (disableTimeout s k,
       [Event.CHECK_SUCCESSFUL k (checksGet s.checks k)
          (attachLinks env r1.assets.region r1),
        Event.CHECK_FINISHED k (checksGet s.checks k)]) ∧
    (∀ m : InboundPayload,
      timeoutsHas (processMessage env s k "run-end" m).1.timeouts k = false) ∧
    timerFire (processMessage env s k "run-end" (InboundPayload.runEnd result)).1 k =
      ((processMessage env s k "run-end" (InboundPayload.runEnd result)).1, []) := by
  have hmain : processMessage env s k "run-end" (InboundPayload.runEnd result) =
      (disableTimeout s k,
       [Event.CHECK_SUCCESSFUL k (checksGet s.checks k)
          (attachLinks env r1.assets.region r1),
        Event.CHECK_FINISHED k (checksGet s.checks k)]) := by
    simp [processMessage, h, he]
  refine ⟨hmain, ?_, ?_⟩
  · intro m
    cases m with
    | runEnd r =>
      cases henr : enrichResult env s.verbose r with
      | error e =>
        simp [processMessage, h, henr, disableTimeout, timeoutsHas_delete_self]
      | ok r2 =>
        simp [processMessage, h, henr, disableTimeout, timeoutsHas_delete_self]
    | other raw =>
      simp [processMessage, h, disableTimeout, timeoutsHas_delete_self]
  · rw [hmain]
    exact timerFire_not_armed _ _ (by simp [disableTimeout, timeoutsHas_delete_self])

/-- Witness for the amended C4 at a concrete successful run-end. -/
theorem C4_run_end_resolves_check_witness :
    timeoutsHas stateAB.timeouts "A" = true ∧
    enrichResult envOk stateAB.verbose resultPlain = Except.ok resultPlain ∧
    (processMessage envOk stateAB "A" "run-end" (InboundPayload.runEnd resultPlain) =
      (disableTimeout stateAB "A",
       [Event.CHECK_SUCCESSFUL "A" (some "descA")
          (attachLinks envOk resultPlain.assets.region resultPlain),
        Event.CHECK_FINISHED "A" (some "descA")]) ∧
     (∀ m : InboundPayload,
       timeoutsHas (processMessage envOk stateAB "A" "run-end" m).1.timeouts "A" = false) ∧
     timerFire (processMessage envOk stateAB "A" "run-end"
        (InboundPayload.runEnd resultPlain)).1 "A" =
       ((processMessage envOk stateAB "A" "run-end"
          (InboundPayload.runEnd resultPlain)).1, [])) :=
  ⟨by decide, by rfl,
   C4_run_end_resolves_check envOk stateAB "A" resultPlain resultPlain
     (by decide) (by rfl)⟩

/-! ### C6: any setup failure aborts the run with a single ERROR -/

/-- C6: if connection, subscription or dispatch fails, the run emits a
single `ERROR` event and nothing else — no per-check events, no
`RUN_FINISHED` — and the final timer registry is empty (no timer was ever
armed, so none can fire later).  Moreover, on a connection failure the
outcome is the same whatever the dispatch hook would have returned: no
checks are ever dispatched. -/
theorem C6_setup_failure_single_error (cfg : RunnerConfig) (inp : RunInputs) (e : String)
    (h : inp.connect = Except.error e ∨
         (inp.connect = Except.ok () ∧ inp.subscribe = Except.error e) ∨
         (inp.connect = Except.ok () ∧ inp.subscribe = Except.ok () ∧
          inp.scheduleChecks = Except.error e)) :
    run cfg inp = ([], [Event.ERROR e]) ∧
    (∀ inp2 : RunInputs, inp2.connect = Except.error e →
      run cfg inp2 = ([], [Event.ERROR e])) := by
  constructor
  · rcases h with h1 | ⟨h1, h2⟩ | ⟨h1, h2, h3⟩
    · simp [run, h1]
    · simp [run, h1, h2]
    · simp [run, h1, h2, h3]
  · intro inp2 h1
    simp [run, h1]

/-- Witness for C6 at the dispatch-failure scenario of the spec. -/
theorem C6_setup_failure_single_error_witness :
    (({ connect := Except.ok (), subscribe := Except.ok ()
        scheduleChecks := Except.error "dispatch failed", env := envOk
        occs := [Occ.fire "A"] } : RunInputs).connect = Except.ok () ∧
     ({ connect := Except.ok (), subscribe := Except.ok ()
        scheduleChecks := Except.error "dispatch failed", env := envOk
        occs := [Occ.fire "A"] } : RunInputs).subscribe = Except.ok () ∧
     ({ connect := Except.ok (), subscribe := Except.ok ()
        scheduleChecks := Except.error "dispatch failed", env := envOk
        occs := [Occ.fire "A"] } : RunInputs).scheduleChecks =
       Except.error "dispatch failed") ∧
    (run { accountId := "acc", timeout := 5, verbose := false }
        { connect := Except.ok (), subscribe := Except.ok ()
          scheduleChecks := Except.error "dispatch failed", env := envOk
          occs := [Occ.fire "A"] } = ([], [Event.ERROR "dispatch failed"]) ∧
     (∀ inp2 : RunInputs, inp2.connect = Except.error "dispatch failed" →
       run { accountId := "acc", timeout := 5, verbose := false } inp2 =
         ([], [Event.ERROR "dispatch failed"]))) :=
  ⟨⟨rfl, rfl, rfl⟩,
   C6_setup_failure_single_error { accountId := "acc", timeout := 5, verbose := false }
     { connect := Except.ok (), subscribe := Except.ok ()
       scheduleChecks := Except.error "dispatch failed", env := envOk
       occs := [Occ.fire "A"] } "dispatch failed" (Or.inr (Or.inr ⟨rfl, rfl, rfl⟩))⟩

/-! ### C9: a run with zero checks completes immediately -/

/-- A step taken from a state with an empty timer registry does nothing. -/
theorem step_no_timeouts (env : AssetEnv) (s : RunnerState) (o : Occ)
    (h : s.timeouts = []) : step env s o = (s, []) := by
  cases o with
  | msg k sub m => simp [step, processMessage, timeoutsHas, findTimer, h]
  | fire k => simp [step, timerFire, findTimer, h]

/-- Processing any schedule from a state with an empty timer registry
emits nothing and leaves the state unchanged. -/
theorem processOccs_no_timeouts (env : AssetEnv) (s : RunnerState) (occs : List Occ)
    (h : s.timeouts = []) : processOccs env s occs = (s, []) := by
  induction occs with
  | nil => rfl
  | cons o rest ih =>
    simp [processOccs, step_no_timeouts env s o h, ih]

/-- C9: when dispatch returns zero checks, completion is immediate: the
run emits `RUN_STARTED` immediately followed by `RUN_FINISHED`, with no
per-check event anywhere in the trace, whatever messages or expirations
the schedule would deliver. -/
theorem C9_zero_checks_immediate (cfg : RunnerConfig) (inp : RunInputs)
    (sched : ScheduleResult)
    (h1 : inp.connect = Except.ok ()) (h2 : inp.subscribe = Except.ok ())
    (h3 : inp.scheduleChecks = Except.ok sched) (hc : sched.checks = []) :
    run cfg inp =
      ([], [Event.RUN_STARTED sched.testSessionId sched.testResultIds,
            Event.RUN_FINISHED sched.testSessionId]) := by
  rcases sched with ⟨sid, rids, checks⟩
  simp only at hc
  subst hc
  have hp := processOccs_no_timeouts inp.env
    { checks := [], timeouts := [],
      timeout := cfg.timeout, verbose := cfg.verbose } inp.occs rfl
  simp [run, h1, h2, h3, armTimeouts, hp]

/-- Witness for C9 at a concrete empty dispatch, with late traffic in the
schedule that is discarded. -/
theorem C9_zero_checks_immediate_witness :
    (({ connect := Except.ok (), subscribe := Except.ok ()
        scheduleChecks := Except.ok { testSessionId := some "sess", testResultIds := none
                                      checks := [] }
        env := envOk
        occs := [Occ.msg "A" "run-end" (InboundPayload.runEnd resultPlain), Occ.fire "A"] }
        : RunInputs).connect = Except.ok () ∧
     ({ testSessionId := some "sess", testResultIds := none
        checks := [] } : ScheduleResult).checks = ([] : List (String × String))) ∧
    run { accountId := "acc", timeout := 5, verbose := false }
      { connect := Except.ok (), subscribe := Except.ok ()
        scheduleChecks := Except.ok { testSessionId := some "sess", testResultIds := none
                                      checks := [] }
        env := envOk
        occs := [Occ.msg "A" "run-end" (InboundPayload.runEnd resultPlain), Occ.fire "A"] } =
      ([], [Event.RUN_STARTED (some "sess") none, Event.RUN_FINISHED (some "sess")]) :=
  ⟨⟨rfl, rfl⟩,
   C9_zero_checks_immediate { accountId := "acc", timeout := 5, verbose := false }
     { connect := Except.ok (), subscribe := Except.ok ()
       scheduleChecks := Except.ok { testSessionId := some "sess", testResultIds := none
                                     checks := [] }
       env := envOk
       occs := [Occ.msg "A" "run-end" (InboundPayload.runEnd resultPlain), Occ.fire "A"] }
     { testSessionId := some "sess", testResultIds := none, checks := [] }
     rfl rfl rfl rfl⟩

/-! ### C2: counting CHECK_FINISHED events and the completion signal -/

/-- One if an entry for the key is registered, zero otherwise. -/
def armedBit (ts : List TimerEntry) (k : String) : Nat :=
  if timeoutsHas ts k then 1 else 0

/-- Finished-check ids distribute over concatenated traces. -/
theorem cfIds_append (l1 l2 : List Event) : cfIds (l1 ++ l2) = cfIds l1 ++ cfIds l2 := by
  simp [cfIds]

/-- Per-check finished counts distribute over concatenated traces. -/
theorem countCFfor_append (k : String) (l1 l2 : List Event) :
    countCFfor k (l1 ++ l2) = countCFfor k l1 + countCFfor k l2 := by
  simp [countCFfor, cfIds_append]

/-- Finished counts distribute over concatenated traces. -/
theorem countCF_append (l1 l2 : List Event) :
    countCF (l1 ++ l2) = countCF l1 + countCF l2 := by
  simp [countCF, cfIds_append]

/-- RUN_FINISHED counts distribute over concatenated traces. -/
theorem countRF_append (l1 l2 : List Event) :
    countRF (l1 ++ l2) = countRF l1 + countRF l2 := by
  simp [countRF]

/-- A trace of non-RUN_FINISHED events counts zero RUN_FINISHED. -/
theorem countRF_eq_zero (l : List Event) (h : ∀ e ∈ l, e.isRunFinishedEv = false) :
    countRF l = 0 := by
  simp only [countRF, List.length_eq_zero]
  exact List.filter_eq_nil_iff.mpr (by intro a ha; simp [h a ha])

/-- Case analysis of one step: either the state is unchanged and the
batch finishes no check, or the batch belongs to a check with a
registered timer whose entry is removed and at most that check is
finished.  In all cases the batch holds only per-check events. -/
theorem step_cases (env : AssetEnv) (s : RunnerState) (o : Occ) :
    ((step env s o).1 = s ∧ cfIds (step env s o).2 = [] ∧
      ∀ e ∈ (step env s o).2, e.isRunFinishedEv = false) ∨
    (∃ k, timeoutsHas s.timeouts k = true ∧
      (step env s o).1 = { s with timeouts := timeoutsDelete s.timeouts k } ∧
      (cfIds (step env s o).2 = [] ∨ cfIds (step env s o).2 = [k]) ∧
      ∀ e ∈ (step env s o).2, e.isRunFinishedEv = false) := by
  cases o with
  | fire k =>
    simp only [step]
    cases hf : findTimer s.timeouts k with
    | none => left; simp [timerFire, hf, cfIds]
    | some t =>
      right
      refine ⟨k, by simp [timeoutsHas, hf], ?_, ?_, ?_⟩
      · simp [timerFire, hf]
      · right; simp [timerFire, hf, cfIds, cfId]
      · simp [timerFire, hf, Event.isRunFinishedEv]
  | msg k sub m =>
    simp only [step]
    cases hk : timeoutsHas s.timeouts k with
    | false => left; simp [processMessage, hk, cfIds]
    | true =>
      by_cases hs1 : (sub == "run-start") = true
      · left
        refine ⟨by simp [processMessage, hk, hs1], ?_, ?_⟩
        · simp [processMessage, hk, hs1, cfIds, cfId]
        · simp [processMessage, hk, hs1, Event.isRunFinishedEv]
      · rw [Bool.not_eq_true] at hs1
        by_cases hs2 : (sub == "run-end") = true
        · cases m with
          | runEnd r =>
            cases he : enrichResult env s.verbose r with
            | error err =>
              right
              refine ⟨k, hk, ?_, ?_, ?_⟩
              · simp [processMessage, hk, hs1, hs2, he, disableTimeout]
              · left; simp [processMessage, hk, hs1, hs2, he, cfIds]
              · simp [processMessage, hk, hs1, hs2, he]
            | ok r1 =>
              right
              refine ⟨k, hk, ?_, ?_, ?_⟩
              · simp [processMessage, hk, hs1, hs2, he, disableTimeout]
              · right; simp [processMessage, hk, hs1, hs2, he, cfIds, cfId]
              · simp [processMessage, hk, hs1, hs2, he, Event.isRunFinishedEv]
          | other raw =>
            right
            refine ⟨k, hk, ?_, ?_, ?_⟩
            · simp [processMessage, hk, hs1, hs2, disableTimeout]
            · left; simp [processMessage, hk, hs1, hs2, cfIds]
            · simp [processMessage, hk, hs1, hs2]
        · rw [Bool.not_eq_true] at hs2
          by_cases hs3 : (sub == "error") = true
          · right
            refine ⟨k, hk, ?_, ?_, ?_⟩
            · simp [processMessage, hk, hs1, hs2, hs3, disableTimeout]
            · right; simp [processMessage, hk, hs1, hs2, hs3, cfIds, cfId]
            · simp [processMessage, hk, hs1, hs2, hs3, Event.isRunFinishedEv]
          · rw [Bool.not_eq_true] at hs3
            left; simp [processMessage, hk, hs1, hs2, hs3, cfIds]

/-- Finished-check ids ignore a leading RUN_FINISHED. -/
theorem cfIds_cons_runFinished (sid : Option String) (l : List Event) :
    cfIds (Event.RUN_FINISHED sid :: l) = cfIds l := by
  simp [cfIds, cfId]

/-- Finished-check ids ignore a leading RUN_STARTED. -/
theorem cfIds_cons_runStarted (sid : Option String)
    (rids : Option (List (String × String))) (l : List Event) :
    cfIds (Event.RUN_STARTED sid rids :: l) = cfIds l := by
  simp [cfIds, cfId]

/-- One step can finish a given check at most once, and only by removing
its registry entry: the finished count of the batch plus the remaining
armed bit is bounded by the armed bit before the step. -/
theorem step_count_le (env : AssetEnv) (s : RunnerState) (o : Occ) (k : String) :
    countCFfor k (step env s o).2 + armedBit (step env s o).1.timeouts k ≤
      armedBit s.timeouts k := by
  rcases step_cases env s o with ⟨h1, h2, _⟩ | ⟨k0, hk0, h1, h2, _⟩
  · rw [countCFfor, h2, h1]
    simp
  · by_cases hkk : k = k0
    · subst hkk
      have hb : armedBit s.timeouts k = 1 := by simp [armedBit, hk0]
      have hb1 : armedBit (step env s o).1.timeouts k = 0 := by
        rw [h1]; simp [armedBit, timeoutsHas_delete_self]
      have hc : countCFfor k (step env s o).2 ≤ 1 := by
        rcases h2 with h2 | h2 <;> rw [countCFfor, h2] <;> simp [List.count_cons]
      omega
    · have hb1 : armedBit (step env s o).1.timeouts k = armedBit s.timeouts k := by
        rw [h1]; simp [armedBit, timeoutsHas_delete_ne _ _ _ hkk]
      have hc : countCFfor k (step env s o).2 = 0 := by
        rcases h2 with h2 | h2 <;> rw [countCFfor, h2]
        · simp
        · simp [List.count_cons, beq_eq_false_iff_ne.mpr (Ne.symm hkk)]
      omega

/-- Along any schedule, the finished count of a check plus its remaining
armed bit never exceeds its initial armed bit. -/
theorem processOccs_count_le (env : AssetEnv) (occs : List Occ) :
    ∀ (s : RunnerState) (k : String),
      countCFfor k (processOccs env s occs).2 +
        armedBit (processOccs env s occs).1.timeouts k ≤ armedBit s.timeouts k := by
  induction occs with
  | nil => intro s k; simp [processOccs, countCFfor, cfIds]
  | cons o rest ih =>
    intro s k
    have h1 := step_count_le env s o k
    have h2 := ih (step env s o).1 k
    simp only [processOccs, countCFfor_append] at *
    omega

/-- A check finished along a schedule had a registered timer at the
start. -/
theorem mem_cfIds_armed (env : AssetEnv) (occs : List Occ) (s : RunnerState) (k : String)
    (h : k ∈ cfIds (processOccs env s occs).2) :
    timeoutsHas s.timeouts k = true := by
  have h1 := processOccs_count_le env occs s k
  have h2 : 0 < (cfIds (processOccs env s occs).2).count k := List.count_pos_iff.mpr h
  by_cases hb : timeoutsHas s.timeouts k
  · exact hb
  · exfalso
    rw [Bool.not_eq_true] at hb
    simp [countCFfor, armedBit, hb] at h1
    omega

/-- No check is finished twice along a schedule. -/
theorem cfIds_nodup (env : AssetEnv) (occs : List Occ) (s : RunnerState) :
    (cfIds (processOccs env s occs).2).Nodup := by
  rw [List.nodup_iff_count_le_one]
  intro a
  have h1 := processOccs_count_le env occs s a
  have h2 : armedBit s.timeouts a ≤ 1 := by unfold armedBit; split <;> omega
  simp only [countCFfor] at h1
  omega

/-- The completion-tracking loop agrees with the plain fold on the final
state and on which checks finish; the inserted RUN_FINISHED adds no
finished check. -/
theorem runLoop_vs_processOccs (env : AssetEnv) (n : Nat) (sid : Option String)
    (occs : List Occ) : ∀ (s : RunnerState) (cnt : Nat),
    cfIds (runLoop env n sid s cnt occs).2 = cfIds (processOccs env s occs).2 ∧
    (runLoop env n sid s cnt occs).1 = (processOccs env s occs).1 := by
  induction occs with
  | nil => intro s cnt; exact ⟨rfl, rfl⟩
  | cons o rest ih =>
    intro s cnt
    have ihr := ih (step env s o).1 (cnt + countCF (step env s o).2)
    constructor
    · simp only [runLoop, processOccs]
      split
      · rw [cfIds_append, cfIds_cons_runFinished, ihr.1, cfIds_append]
      · rw [cfIds_append, ihr.1, cfIds_append]
    · simp only [runLoop, processOccs]
      split <;> exact ihr.2

/-- A batch of per-check events contributes no RUN_FINISHED. -/
theorem step_countRF (env : AssetEnv) (s : RunnerState) (o : Occ) :
    countRF (step env s o).2 = 0 := by
  rcases step_cases env s o with ⟨_, _, h3⟩ | ⟨_, _, _, _, h3⟩ <;>
    exact countRF_eq_zero _ (by intro e he; exact h3 e he)

/-- RUN_FINISHED count of a trace led by RUN_FINISHED. -/
theorem countRF_cons_runFinished (sid : Option String) (l : List Event) :
    countRF (Event.RUN_FINISHED sid :: l) = countRF l + 1 := by
  simp [countRF, Event.isRunFinishedEv, List.filter_cons]

/-- Once the finished count has reached the total, the loop emits no
further RUN_FINISHED. -/
theorem runLoop_countRF_done (env : AssetEnv) (n : Nat) (sid : Option String)
    (occs : List Occ) : ∀ (s : RunnerState) (cnt : Nat), n ≤ cnt →
    countRF (runLoop env n sid s cnt occs).2 = 0 := by
  induction occs with
  | nil => intro s cnt _; rfl
  | cons o rest ih =>
    intro s cnt h
    have hno := step_countRF env s o
    simp only [runLoop]
    by_cases hcond : cnt < n ∧ n ≤ cnt + countCF (step env s o).2
    · exact absurd hcond.1 (Nat.not_lt.mpr h)
    · rw [if_neg hcond, countRF_append, hno,
        ih (step env s o).1 (cnt + countCF (step env s o).2)
          (Nat.le_trans h (Nat.le_add_right cnt _))]

/-- If the schedule brings the finished count from below the total up to
it, the loop emits RUN_FINISHED exactly once. -/
theorem runLoop_countRF_one (env : AssetEnv) (n : Nat) (sid : Option String)
    (occs : List Occ) : ∀ (s : RunnerState) (cnt : Nat), cnt < n →
    n ≤ cnt + countCF (processOccs env s occs).2 →
    countRF (runLoop env n sid s cnt occs).2 = 1 := by
  induction occs with
  | nil =>
    intro s cnt h1 h2
    simp [processOccs, countCF, cfIds] at h2
    omega
  | cons o rest ih =>
    intro s cnt h1 h2
    have hno := step_countRF env s o
    have htot : countCF (processOccs env s (o :: rest)).2 =
        countCF (step env s o).2 + countCF (processOccs env (step env s o).1 rest).2 := by
      simp only [processOccs]
      exact countCF_append _ _
    simp only [runLoop]
    by_cases hcond : cnt < n ∧ n ≤ cnt + countCF (step env s o).2
    · rw [if_pos hcond, countRF_append, hno, countRF_cons_runFinished,
        runLoop_countRF_done env n sid rest (step env s o).1
          (cnt + countCF (step env s o).2) hcond.2]
    · rw [if_neg hcond, countRF_append, hno]
      have hb : ¬ (n ≤ cnt + countCF (step env s o).2) := fun hb => hcond ⟨h1, hb⟩
      rw [htot] at h2
      have := ih (step env s o).1 (cnt + countCF (step env s o).2) (by omega) (by omega)
      omega

/-- takeWhile over a prefix that fully satisfies the predicate. -/
theorem takeWhile_append_all (p : Event → Bool) (l1 l2 : List Event)
    (h : ∀ a ∈ l1, p a = true) :
    (l1 ++ l2).takeWhile p = l1 ++ l2.takeWhile p := by
  induction l1 with
  | nil => rfl
  | cons a l1 ih =>
    have ha : p a = true := h a (List.mem_cons_self a l1)
    simp only [List.cons_append, List.takeWhile_cons, ha, if_true]
    rw [ih (fun b hb => h b (List.mem_cons_of_mem a hb))]

/-- A step batch passes entirely through a take-until-RUN_FINISHED. -/
theorem step_pass (env : AssetEnv) (s : RunnerState) (o : Occ) :
    ∀ e ∈ (step env s o).2, (!e.isRunFinishedEv) = true := by
  rcases step_cases env s o with ⟨_, _, h3⟩ | ⟨_, _, _, _, h3⟩ <;>
    { intro e he; rw [h3 e he]; rfl }

/-- A step finishes at most one check. -/
theorem step_countCF_le_one (env : AssetEnv) (s : RunnerState) (o : Occ) :
    countCF (step env s o).2 ≤ 1 := by
  rcases step_cases env s o with ⟨_, h2, _⟩ | ⟨k0, _, _, h2, _⟩
  · rw [countCF, h2]; simp
  · rcases h2 with h2 | h2 <;> rw [countCF, h2] <;> simp

/-- Up to the emitted RUN_FINISHED, the loop emits exactly the finished
events missing from the running count. -/
theorem runLoop_takeWhile_countCF (env : AssetEnv) (n : Nat) (sid : Option String)
    (occs : List Occ) : ∀ (s : RunnerState) (cnt : Nat), cnt < n →
    n ≤ cnt + countCF (processOccs env s occs).2 →
    countCF ((runLoop env n sid s cnt occs).2.takeWhile (fun e => !e.isRunFinishedEv)) + cnt
      = n := by
  induction occs with
  | nil =>
    intro s cnt h1 h2
    simp [processOccs, countCF, cfIds] at h2
    omega
  | cons o rest ih =>
    intro s cnt h1 h2
    have hpass := step_pass env s o
    have hle := step_countCF_le_one env s o
    have htot : countCF (processOccs env s (o :: rest)).2 =
        countCF (step env s o).2 + countCF (processOccs env (step env s o).1 rest).2 := by
      simp only [processOccs]
      exact countCF_append _ _
    simp only [runLoop]
    by_cases hcond : cnt < n ∧ n ≤ cnt + countCF (step env s o).2
    · rw [if_pos hcond, takeWhile_append_all _ _ _ hpass]
      have hrf : ((Event.RUN_FINISHED sid ::
          (runLoop env n sid (step env s o).1 (cnt + countCF (step env s o).2) rest).2).takeWhile
            (fun e => !e.isRunFinishedEv)) = [] := by
        simp [List.takeWhile_cons, Event.isRunFinishedEv]
      rw [hrf, countCF_append]
      have hz : countCF ([] : List Event) = 0 := rfl
      omega
    · rw [if_neg hcond, takeWhile_append_all _ _ _ hpass, countCF_append]
      have hb : ¬ (n ≤ cnt + countCF (step env s o).2) := fun hb => hcond ⟨h1, hb⟩
      rw [htot] at h2
      have := ih (step env s o).1 (cnt + countCF (step env s o).2) (by omega) (by omega)
      omega

/-- A key is registered after arming exactly when it is a key of the
checks map. -/
theorem timeoutsHas_armTimeouts (cs : List (String × String)) (t : Nat) (k : String) :
    timeoutsHas (armTimeouts cs t) k = true ↔ k ∈ cs.map Prod.fst := by
  rw [timeoutsHas_iff_exists]
  constructor
  · rintro ⟨e, he, hid⟩
    simp only [armTimeouts, List.mem_map] at he
    rcases he with ⟨c, hc, rfl⟩
    exact List.mem_map.mpr ⟨c, hc, hid⟩
  · intro hk
    rcases List.mem_map.mp hk with ⟨c, hc, rfl⟩
    exact ⟨_, List.mem_map.mpr ⟨c, hc, rfl⟩, rfl⟩

/-- RUN_FINISHED count ignores a leading RUN_STARTED. -/
theorem countRF_cons_runStarted (sid : Option String)
    (rids : Option (List (String × String))) (l : List Event) :
    countRF (Event.RUN_STARTED sid rids :: l) = countRF l := by
  simp [countRF, Event.isRunFinishedEv, List.filter_cons]

/-- C2: for a run with `n > 0` dispatched checks (distinct identifiers)
whose trace completes — i.e. the trace holds `n` `CHECK_FINISHED` events,
as produced when every check reaches a terminal state — each check is
finished exactly once, `RUN_FINISHED` is emitted exactly once, and the
events before the `RUN_FINISHED` hold exactly the `n` `CHECK_FINISHED`
events: the completion signal resolves exactly once, immediately after
the n-th finished check. -/
theorem C2_exactly_one_finish_then_run_finished (cfg : RunnerConfig) (inp : RunInputs)
    (sched : ScheduleResult)
    (h1 : inp.connect = Except.ok ()) (h2 : inp.subscribe = Except.ok ())
    (h3 : inp.scheduleChecks = Except.ok sched)
    (hn : 0 < sched.checks.length)
    (hnd : (sched.checks.map Prod.fst).Nodup)
    (hdone : countCF (run cfg inp).2 = sched.checks.length) :
    (∀ k ∈ sched.checks.map Prod.fst, countCFfor k (run cfg inp).2 = 1) ∧
    countRF (run cfg inp).2 = 1 ∧
    countCF ((run cfg inp).2.takeWhile (fun e => !e.isRunFinishedEv)) =
      sched.checks.length := by
  have hne : ¬ (sched.checks.length = 0) := by omega
  have hrun2 : (run cfg inp).2 =
      Event.RUN_STARTED sched.testSessionId sched.testResultIds ::
        (runLoop inp.env sched.checks.length sched.testSessionId
          { checks := sched.checks, timeouts := armTimeouts sched.checks cfg.timeout,
            timeout := cfg.timeout, verbose := cfg.verbose } 0 inp.occs).2 := by
    simp only [run, h1, h2, h3]
    rw [if_neg hne]
  have hids := runLoop_vs_processOccs inp.env sched.checks.length sched.testSessionId
    inp.occs { checks := sched.checks, timeouts := armTimeouts sched.checks cfg.timeout,
               timeout := cfg.timeout, verbose := cfg.verbose } 0
  have hdone2 : countCF (runLoop inp.env sched.checks.length sched.testSessionId
      { checks := sched.checks, timeouts := armTimeouts sched.checks cfg.timeout,
        timeout := cfg.timeout, verbose := cfg.verbose } 0 inp.occs).2 =
      sched.checks.length := by
    rw [hrun2] at hdone
    rwa [countCF, cfIds_cons_runStarted, ← countCF] at hdone
  have hLlen : countCF (processOccs inp.env
      { checks := sched.checks, timeouts := armTimeouts sched.checks cfg.timeout,
        timeout := cfg.timeout, verbose := cfg.verbose } inp.occs).2 =
      sched.checks.length := by
    rw [countCF, ← hids.1, ← countCF, hdone2]
  refine ⟨?_, ?_, ?_⟩
  · intro k hk
    have hstrip : countCFfor k (run cfg inp).2 =
        (cfIds (processOccs inp.env
          { checks := sched.checks, timeouts := armTimeouts sched.checks cfg.timeout,
            timeout := cfg.timeout, verbose := cfg.verbose } inp.occs).2).count k := by
      rw [hrun2, countCFfor, cfIds_cons_runStarted, hids.1]
    have hnodup := cfIds_nodup inp.env inp.occs
      { checks := sched.checks, timeouts := armTimeouts sched.checks cfg.timeout,
        timeout := cfg.timeout, verbose := cfg.verbose }
    have hsub : cfIds (processOccs inp.env
        { checks := sched.checks, timeouts := armTimeouts sched.checks cfg.timeout,
          timeout := cfg.timeout, verbose := cfg.verbose } inp.occs).2 ⊆
        sched.checks.map Prod.fst := by
      intro x hx
      have hx2 := mem_cfIds_armed inp.env inp.occs
        { checks := sched.checks, timeouts := armTimeouts sched.checks cfg.timeout,
          timeout := cfg.timeout, verbose := cfg.verbose } x hx
      exact (timeoutsHas_armTimeouts sched.checks cfg.timeout x).mp hx2
    have hlen : (sched.checks.map Prod.fst).length ≤
        (cfIds (processOccs inp.env
          { checks := sched.checks, timeouts := armTimeouts sched.checks cfg.timeout,
            timeout := cfg.timeout, verbose := cfg.verbose } inp.occs).2).length := by
      rw [List.length_map]
      have hc : (cfIds (processOccs inp.env
          { checks := sched.checks, timeouts := armTimeouts sched.checks cfg.timeout,
            timeout := cfg.timeout, verbose := cfg.verbose } inp.occs).2).length =
          sched.checks.length := hLlen
      omega
    have hperm := (List.subperm_of_subset hnodup hsub).perm_of_length_le hlen
    rw [hstrip, hperm.count_eq k, List.count_eq_one_of_mem hnd hk]
  · rw [hrun2, countRF_cons_runStarted]
    exact runLoop_countRF_one inp.env sched.checks.length sched.testSessionId inp.occs
      { checks := sched.checks, timeouts := armTimeouts sched.checks cfg.timeout,
        timeout := cfg.timeout, verbose := cfg.verbose } 0 hn (by omega)
  · rw [hrun2]
    have hpassrs : ((Event.RUN_STARTED sched.testSessionId sched.testResultIds ::
        (runLoop inp.env sched.checks.length sched.testSessionId
          { checks := sched.checks, timeouts := armTimeouts sched.checks cfg.timeout,
            timeout := cfg.timeout, verbose := cfg.verbose } 0 inp.occs).2).takeWhile
          (fun e => !e.isRunFinishedEv)) =
        Event.RUN_STARTED sched.testSessionId sched.testResultIds ::
        ((runLoop inp.env sched.checks.length sched.testSessionId
          { checks := sched.checks, timeouts := armTimeouts sched.checks cfg.timeout,
            timeout := cfg.timeout, verbose := cfg.verbose } 0 inp.occs).2.takeWhile
          (fun e => !e.isRunFinishedEv)) := by
      simp [List.takeWhile_cons, Event.isRunFinishedEv]
    rw [hpassrs, countCF, cfIds_cons_runStarted, ← countCF]
    have ht := runLoop_takeWhile_countCF inp.env sched.checks.length sched.testSessionId
      inp.occs { checks := sched.checks, timeouts := armTimeouts sched.checks cfg.timeout,
                 timeout := cfg.timeout, verbose := cfg.verbose } 0 hn (by omega)
    omega

/-- Configuration used by the completion witness. -/
def cfgW : RunnerConfig := { accountId := "acc", timeout := 5, verbose := false }

/-- Dispatch result used by the completion witness: two checks. -/
def schedW : ScheduleResult :=
  { testSessionId := some "sess", testResultIds := none
    checks := [("A", "descA"), ("B", "descB")] }

/-- Run inputs used by the completion witness: check A ends normally,
check B times out. -/
def inpW : RunInputs :=
  { connect := Except.ok (), subscribe := Except.ok ()
    scheduleChecks := Except.ok schedW, env := envOk
    occs := [Occ.msg "A" "run-end" (InboundPayload.runEnd resultPlain), Occ.fire "B"] }

/-- Witness for C2 at a concrete completed two-check run. -/
theorem C2_exactly_one_finish_then_run_finished_witness :
    (inpW.connect = Except.ok () ∧ inpW.subscribe = Except.ok () ∧
     inpW.scheduleChecks = Except.ok schedW ∧ 0 < schedW.checks.length ∧
     (schedW.checks.map Prod.fst).Nodup ∧
     countCF (run cfgW inpW).2 = schedW.checks.length) ∧
    ((∀ k ∈ schedW.checks.map Prod.fst, countCFfor k (run cfgW inpW).2 = 1) ∧
     countRF (run cfgW inpW).2 = 1 ∧
     countCF ((run cfgW inpW).2.takeWhile (fun e => !e.isRunFinishedEv)) =
       schedW.checks.length) :=
  ⟨⟨rfl, rfl, rfl, by decide, by decide, by decide⟩,
   C2_exactly_one_finish_then_run_finished cfgW inpW schedW rfl rfl rfl
     (by decide) (by decide) (by decide)⟩

end ChecklyCli
